import Mathlib

/-!
Verification of the selection/navigation state machine of a React
date-range-picker component (`DateRangePicker.tsx`).

Dates are embedded at day+millisecond resolution as a month index
(`year * 12 + month₀`), a day of month, and a millisecond offset within the
day; lexicographic comparison of these fields agrees with the comparison of
real timestamps for valid calendar data, which is what the component's
`isBefore` / `isAfter` calls perform.
-/

namespace DRP

/-- A point in time: month index (`year * 12 + month₀`), day of month (1-based),
milliseconds within the day. -/
structure DT where
  mi : Int
  d : Nat
  t : Nat
deriving DecidableEq, Repr

/-- Leap-year test (proleptic Gregorian), as used by the date library. -/
def isLeap (y : Int) : Bool := (y % 4 == 0 && y % 100 != 0) || y % 400 == 0

/-- Number of days in the month with the given month index. -/
def daysInMonth (mi : Int) : Nat :=
  let m := mi % 12
  let y := mi / 12
  if m = 1 then (if isLeap y then 29 else 28)
  else if m = 3 ∨ m = 5 ∨ m = 8 ∨ m = 10 then 30
  else 31

/-- Build a `DT` at midnight from year, month (1-based), day. -/
def mkDate (y m d : Nat) : DT := ⟨(y : Int) * 12 + ((m : Int) - 1), d, 0⟩

/-- `date-fns` `isBefore`: strict comparison of the underlying timestamps,
here lexicographic on (month, day, ms). -/
def isBefore (a b : DT) : Bool :=
  decide (a.mi < b.mi) ||
    (decide (a.mi = b.mi) &&
      (decide (a.d < b.d) || (decide (a.d = b.d) && decide (a.t < b.t))))

/-- `date-fns` `isAfter`. -/
def isAfter (a b : DT) : Bool := isBefore b a

/-- `date-fns` `isSameDay`. -/
def isSameDay (a b : DT) : Bool := decide (a.mi = b.mi) && decide (a.d = b.d)

/-- `date-fns` `isSameMonth`. -/
def isSameMonth (a b : DT) : Bool := decide (a.mi = b.mi)

/-- `date-fns` `startOfMonth`. -/
def startOfMonth (x : DT) : DT := ⟨x.mi, 1, 0⟩

/-- `date-fns` `endOfMonth`. -/
def endOfMonth (x : DT) : DT := ⟨x.mi, daysInMonth x.mi, 86399999⟩

/-- `date-fns` `startOfDay`. -/
def startOfDay (x : DT) : DT := ⟨x.mi, x.d, 0⟩

/-- `date-fns` `endOfDay`. -/
def endOfDay (x : DT) : DT := ⟨x.mi, x.d, 86399999⟩

/-- `date-fns` `addMonths`: shifts the month index, clamps the day of month to
the target month's length, preserves the time of day. -/
def addMonths (x : DT) (k : Int) : DT :=
  ⟨x.mi + k, min x.d (daysInMonth (x.mi + k)), x.t⟩

/-- Day-granularity `≤`: ignores the time-of-day component. -/
def dayLE (a b : DT) : Bool :=
  decide (a.mi < b.mi) || (decide (a.mi = b.mi) && decide (a.d ≤ b.d))

/-- The `DateRange` value type of the component: optional start and end. -/
structure DateRange where
  startDate : Option DT
  endDate : Option DT
deriving DecidableEq, Repr

/-- A range is ordered when, whenever both endpoints are present, they are in
day order. -/
def rangeOrdered (r : DateRange) : Bool :=
  match r.startDate, r.endDate with
  | some a, some b => dayLE a b
  | _, _ => true

/-- The configuration props of the component that the state machine reads. -/
structure Config where
  minDate : Option DT
  maxDate : Option DT
  autoApply : Bool
  closeOnSelect : Bool
  singleDatePicker : Bool
  separateCalendars : Bool
  editable : Bool
deriving DecidableEq, Repr

/-- The component's internal state: popover open flag, the two view cursors,
hover preview, pending (temp) range, the two dropdown-open indices, and the
text field value. -/
structure PState where
  isOpen : Bool
  viewDateStart : DT
  viewDateEnd : DT
  hoverDate : Option DT
  tempRange : DateRange
  openYearDropdown : Option Nat
  openMonthDropdown : Option Nat
  textValue : List Char
deriving DecidableEq, Repr

/-- `disableDate`: a day is disabled when before the floored minimum or after
the ceiled maximum. -/
def disableDate (cfg : Config) (day : DT) : Bool :=
  (match cfg.minDate with
   | some m => isBefore day (startOfDay m)
   | none => false) ||
  (match cfg.maxDate with
   | some m => isAfter day (endOfDay m)
   | none => false)

/-- The `if (closeOnSelect) setOpen(false)` step after an auto-apply commit. -/
def closeIf (cfg : Config) (st : PState) : PState :=
  if cfg.closeOnSelect then { st with isOpen := false } else st

/-- The `setOpenYearDropdown(null); setOpenMonthDropdown(null)` prologue of
`handleDayClick`. -/
def closeDropdowns (st : PState) : PState :=
  { st with openYearDropdown := none, openMonthDropdown := none }

/-- The shared `if (autoApply && newRange.startDate && newRange.endDate)`
commit step of the two per-calendar click branches. -/
def commitIfComplete (cfg : Config) (st : PState) (r : DateRange) :
    PState × Option DateRange :=
  if cfg.autoApply && r.startDate.isSome && r.endDate.isSome then
    (closeIf cfg { st with tempRange := r }, some r)
  else ({ st with tempRange := r }, none)

/-- The single-date-mode branch of `handleDayClick`. -/
def singleClick (cfg : Config) (st : PState) (day : DT) :
    PState × Option DateRange :=
  let next : DateRange := ⟨some day, some day⟩
  if cfg.autoApply then (closeIf cfg { st with tempRange := next }, some next)
  else ({ st with tempRange := next }, none)

/-- The per-calendar left (From) click branch: sets `startDate`, swapping with
the current end when the clicked day is after it. -/
def sepLeftClick (cfg : Config) (st : PState) (day : DT) :
    PState × Option DateRange :=
  let newRange : DateRange :=
    match st.tempRange.endDate with
    | some e => if isAfter day e then ⟨some e, some day⟩ else ⟨some day, some e⟩
    | none => ⟨some day, none⟩
  commitIfComplete cfg st newRange

/-- The per-calendar right (To) click branch: sets `endDate`, swapping with
the current start when the clicked day is before it. -/
def sepRightClick (cfg : Config) (st : PState) (day : DT) :
    PState × Option DateRange :=
  let newRange : DateRange :=
    match st.tempRange.startDate with
    | some s => if isBefore day s then ⟨some day, some s⟩ else ⟨some s, some day⟩
    | none => ⟨none, some day⟩
  commitIfComplete cfg st newRange

/-- The free-range two-phase branch of `handleDayClick`. -/
def freeClick (cfg : Config) (st : PState) (day : DT) :
    PState × Option DateRange :=
  if st.tempRange.startDate.isNone ||
      (st.tempRange.startDate.isSome && st.tempRange.endDate.isSome) then
    ({ st with tempRange := ⟨some day, none⟩, hoverDate := none }, none)
  else
    match st.tempRange.startDate with
    | none => (st, none)
    | some s =>
      let newRange : DateRange :=
        if isBefore day s then ⟨some day, some s⟩ else ⟨some s, some day⟩
      if cfg.autoApply then (closeIf cfg { st with tempRange := newRange }, some newRange)
      else ({ st with tempRange := newRange }, none)

/-- `handleDayClick`: closes the dropdowns, rejects disabled days, then
dispatches on single-date mode, per-calendar (separateCalendars) mode, or
free-range two-phase mode.  Returns the next state together with the
`onChange` emission, if any. -/
def handleDayClick (cfg : Config) (st0 : PState) (day : DT)
    (calendarIndex : Option Nat) : PState × Option DateRange :=
  let st := closeDropdowns st0
  if disableDate cfg day then (st, none)
  else if cfg.singleDatePicker then singleClick cfg st day
  else if cfg.separateCalendars && calendarIndex.isSome then
    if calendarIndex = some 0 then sepLeftClick cfg st day
    else sepRightClick cfg st day
  else freeClick cfg st day

/-- `applyPreset`: stores the preset's produced range as the pending range and
commits it when auto-apply is on.  The view cursors are not touched. -/
def applyPreset (cfg : Config) (st : PState) (next : DateRange) :
    PState × Option DateRange :=
  let st := { st with tempRange := next }
  if cfg.autoApply then (closeIf cfg st, some next) else (st, none)

/-- `applyPresetDate`: stores the produced single day as a degenerate range,
re-centers both view cursors on it, and commits when auto-apply is on. -/
def applyPresetDate (cfg : Config) (st : PState) (d : DT) :
    PState × Option DateRange :=
  let next : DateRange := ⟨some d, some d⟩
  let st := { st with tempRange := next,
                      viewDateStart := startOfMonth d,
                      viewDateEnd := addMonths (startOfMonth d) 1 }
  if cfg.autoApply then (closeIf cfg st, some next) else (st, none)

/-- Whitespace test used by `trim`. -/
def isSpace (c : Char) : Bool := c = ' ' || c = '\t' || c = '\n' || c = '\r'

/-- JavaScript `String.prototype.trim` on a character list. -/
def trim (l : List Char) : List Char :=
  ((l.dropWhile isSpace).reverse.dropWhile isSpace).reverse

/-- JavaScript `text.split('~')` on a character list. -/
def splitOnTilde : List Char → List (List Char)
  | [] => [[]]
  | c :: rest =>
    if c = '~' then [] :: splitOnTilde rest
    else
      match splitOnTilde rest with
      | [] => [[c]]
      | t :: ts => (c :: t) :: ts

/-- The single-date branch of `applyText`: one token is parsed and
bounds-checked; on success the degenerate pair is stored, the cursors are
re-centered, and the result is committed when auto-apply is on. -/
def applyTextSingle (cfg : Config) (st : PState) (prs : List Char → Option DT) :
    PState × Option DateRange :=
  match prs (trim st.textValue) with
  | some parsed =>
    if !disableDate cfg parsed then
      let next : DateRange := ⟨some parsed, some parsed⟩
      let st' := { st with tempRange := next,
                           viewDateStart := startOfMonth parsed,
                           viewDateEnd := addMonths (startOfMonth parsed) 1 }
      if cfg.autoApply then (st', some next) else (st', none)
    else (st, none)
  | none => (st, none)

/-- The range branch of `applyText` after a successful two-token parse:
bounds-check both days, order the pair, store it, re-center the cursors, and
commit when auto-apply is on. -/
def applyTextPair (cfg : Config) (st : PState) (sParsed eParsed : DT) :
    PState × Option DateRange :=
  if !disableDate cfg sParsed && !disableDate cfg eParsed then
    let start0 := startOfDay sParsed
    let end0 := endOfDay eParsed
    let pair :=
      if isAfter start0 end0 then (startOfDay eParsed, endOfDay sParsed)
      else (start0, end0)
    let next : DateRange := ⟨some pair.1, some pair.2⟩
    let st' := { st with tempRange := next,
                         viewDateStart := startOfMonth pair.1,
                         viewDateEnd := startOfMonth (addMonths pair.1 1) }
    if cfg.autoApply then (st', some next) else (st', none)
  else (st, none)

/-- `applyText`: parses the text field.  In single mode one token is parsed
and bounds-checked; in range mode the text is split on `~` into exactly two
tokens, both of which must parse and pass the bounds check.  On any failure
nothing changes.  The parser for the display pattern is passed in as
`prs`. -/
def applyText (cfg : Config) (st : PState) (prs : List Char → Option DT) :
    PState × Option DateRange :=
  if !cfg.editable then (st, none)
  else if cfg.singleDatePicker then applyTextSingle cfg st prs
  else
    match splitOnTilde st.textValue with
    | [p0, p1] =>
      match prs (trim p0), prs (trim p1) with
      | some sParsed, some eParsed => applyTextPair cfg st sParsed eParsed
      | _, _ => (st, none)
    | _ => (st, none)

/-- The sync effect that rebuilds the text field from the committed value,
given the formatting collaborator `fmt`. -/
def textOf (cfg : Config) (fmt : DT → List Char) (value : DateRange) :
    List Char :=
  if cfg.singleDatePicker then
    match value.startDate with
    | some s => fmt s
    | none => []
  else
    let a := match value.startDate with | some s => fmt s | none => []
    let b := match value.endDate with | some e => fmt e | none => []
    if a.isEmpty || b.isEmpty then [] else a ++ (' ' :: '~' :: ' ' :: b)

/-- `getCanGoPrev`: the previous month must not end before the floored
minimum bound. -/
def getCanGoPrev (cfg : Config) (st : PState) (calendarIndex : Nat) : Bool :=
  match cfg.minDate with
  | none => true
  | some minD =>
    let viewDate := if calendarIndex = 0 then st.viewDateStart else st.viewDateEnd
    !isBefore (endOfMonth (addMonths viewDate (-1))) (startOfDay minD)

/-- `getCanGoNext`: the next month must not start after the ceiled maximum
bound. -/
def getCanGoNext (cfg : Config) (st : PState) (calendarIndex : Nat) : Bool :=
  match cfg.maxDate with
  | none => true
  | some maxD =>
    let viewDate := if calendarIndex = 0 then st.viewDateStart else st.viewDateEnd
    !isAfter (startOfMonth (addMonths viewDate 1)) (endOfDay maxD)

/-- `handlePrev`: pages the selected calendar one month back, subject to the
min bound and to the mode's ordering guard. -/
def handlePrev (cfg : Config) (st : PState) (calendarIndex : Nat) : PState :=
  if !getCanGoPrev cfg st calendarIndex then st
  else if calendarIndex = 0 then
    let newStart := addMonths st.viewDateStart (-1)
    if cfg.separateCalendars && st.tempRange.endDate.isSome then
      match st.tempRange.endDate with
      | some e =>
        if isBefore (startOfMonth newStart) (startOfMonth e) then
          { st with viewDateStart := newStart }
        else st
      | none => st
    else if !cfg.singleDatePicker && !cfg.separateCalendars then
      { st with viewDateStart := newStart, viewDateEnd := addMonths newStart 1 }
    else { st with viewDateStart := newStart }
  else
    let newEnd := addMonths st.viewDateEnd (-1)
    if cfg.separateCalendars && st.tempRange.startDate.isSome then
      match st.tempRange.startDate with
      | some s =>
        if isAfter (startOfMonth newEnd) (startOfMonth s) then
          { st with viewDateEnd := newEnd }
        else st
      | none => st
    else if !cfg.singleDatePicker && !cfg.separateCalendars then
      if !isBefore (startOfMonth newEnd) (addMonths (startOfMonth st.viewDateStart) 1) then
        { st with viewDateEnd := newEnd, viewDateStart := addMonths newEnd (-1) }
      else st
    else { st with viewDateEnd := newEnd }

/-- `handleNext`: pages the selected calendar one month forward, subject to
the max bound and to the mode's ordering guard. -/
def handleNext (cfg : Config) (st : PState) (calendarIndex : Nat) : PState :=
  if !getCanGoNext cfg st calendarIndex then st
  else if calendarIndex = 0 then
    let newStart := addMonths st.viewDateStart 1
    if cfg.separateCalendars && st.tempRange.endDate.isSome then
      match st.tempRange.endDate with
      | some e =>
        if isBefore (startOfMonth newStart) (startOfMonth e) then
          { st with viewDateStart := newStart }
        else st
      | none => st
    else if !cfg.singleDatePicker && !cfg.separateCalendars then
      if isBefore (startOfMonth newStart) (startOfMonth st.viewDateEnd) then
        { st with viewDateStart := newStart, viewDateEnd := addMonths newStart 1 }
      else st
    else { st with viewDateStart := newStart }
  else
    let newEnd := addMonths st.viewDateEnd 1
    if cfg.separateCalendars && st.tempRange.startDate.isSome then
      match st.tempRange.startDate with
      | some s =>
        if isAfter (startOfMonth newEnd) (startOfMonth s) then
          { st with viewDateEnd := newEnd }
        else st
      | none => st
    else if !cfg.singleDatePicker && !cfg.separateCalendars then
      { st with viewDateEnd := newEnd, viewDateStart := addMonths newEnd (-1) }
    else { st with viewDateEnd := newEnd }

/-- `handleMonthYearChange`: set the chosen calendar's cursor to the start of
the chosen month, independently of the other calendar. -/
def handleMonthYearChange (st : PState) (calendarIndex : Nat) (newDate : DT) :
    PState :=
  let newMonth := startOfMonth newDate
  if calendarIndex = 0 then { st with viewDateStart := newMonth }
  else { st with viewDateEnd := newMonth }

/-- The shared disabled predicate of the year and month quick-jump dropdowns,
keyed on the target month (the first day of the candidate month). -/
def quickJumpDisabled (cfg : Config) (st : PState) (calendarIndex : Nat)
    (testDate : DT) : Bool :=
  if cfg.singleDatePicker then false
  else if cfg.separateCalendars then
    if calendarIndex = 0 then
      match st.tempRange.endDate with
      | some e => !isBefore (startOfMonth testDate) (startOfMonth e)
      | none => false
    else
      match st.tempRange.startDate with
      | some s => !isAfter (startOfMonth testDate) (startOfMonth s)
      | none => false
  else if calendarIndex = 0 then
    !isBefore (startOfMonth testDate) (startOfMonth st.viewDateEnd)
  else
    !isAfter (startOfMonth testDate) (startOfMonth st.viewDateStart)

/-- A quick-jump click: a no-op when the option is disabled, otherwise
`handleMonthYearChange` followed by closing both dropdowns. -/
def quickJump (cfg : Config) (st : PState) (calendarIndex : Nat)
    (testDate : DT) : PState :=
  if quickJumpDisabled cfg st calendarIndex testDate then st
  else
    { handleMonthYearChange st calendarIndex testDate with
        openYearDropdown := none, openMonthDropdown := none }

/-- The effect that re-centers both cursors whenever the committed value's
start date changes: left gets the start month; right gets the end month when
it differs, else the month after the start. -/
def resetCursors (value : DateRange) (st : PState) : PState :=
  match value.startDate with
  | none => st
  | some vs =>
    let r :=
      match value.endDate with
      | some ve =>
        if !isSameMonth vs ve then startOfMonth ve
        else addMonths (startOfMonth vs) 1
      | none => addMonths (startOfMonth vs) 1
    { st with viewDateStart := startOfMonth vs, viewDateEnd := r }

/-- The initial state: cursors seeded from the committed start date (or
today), the right cursor one month later; pending seeded from the committed
value; everything else closed/empty. -/
def initState (value : DateRange) (today : DT) : PState :=
  { isOpen := false
    viewDateStart := value.startDate.getD today
    viewDateEnd := addMonths (value.startDate.getD today) 1
    hoverDate := none
    tempRange := value
    openYearDropdown := none
    openMonthDropdown := none
    textValue := [] }

end DRP

namespace DRP

theorem dayLE_of_isAfter_eq_false (a b : DT) (h : isAfter a b = false) :
    dayLE a b = true := by
  simp [isAfter, isBefore] at h
  simp [dayLE]
  omega

theorem dayLE_of_isBefore (a b : DT) (h : isBefore a b = true) :
    dayLE a b = true := by
  simp [isBefore] at h
  simp [dayLE]
  omega

theorem dayLE_of_isBefore_eq_false (a b : DT) (h : isBefore a b = false) :
    dayLE b a = true := by
  simp [isBefore] at h
  simp [dayLE]
  omega

theorem dayLE_of_sd_ed_isAfter (a b : DT)
    (h : isAfter (startOfDay a) (endOfDay b) = true) : dayLE b a = true := by
  simp [isAfter, isBefore, startOfDay, endOfDay] at h
  simp [dayLE]
  omega

theorem dayLE_of_sd_ed_isAfter_eq_false (a b : DT)
    (h : isAfter (startOfDay a) (endOfDay b) = false) : dayLE a b = true := by
  simp [isAfter, isBefore, startOfDay, endOfDay] at h
  simp [dayLE]
  omega

theorem dayLE_of_isAfter (a b : DT) (h : isAfter a b = true) :
    dayLE b a = true := by
  simp [isAfter, isBefore] at h
  simp [dayLE]
  omega

theorem dayLE_of_ed_sd_isBefore (a b : DT)
    (h : isBefore (endOfDay b) (startOfDay a) = true) : dayLE b a = true := by
  simp [isBefore, startOfDay, endOfDay] at h
  simp [dayLE]
  omega

theorem dayLE_of_ed_sd_isBefore_eq_false (a b : DT)
    (h : isBefore (endOfDay b) (startOfDay a) = false) : dayLE a b = true := by
  simp [isBefore, startOfDay, endOfDay] at h
  simp [dayLE]
  omega

theorem dayLE_refl (a : DT) : dayLE a a = true := by
  simp [dayLE]

theorem daysInMonth_pos (mi : Int) : 1 ≤ daysInMonth mi := by
  unfold daysInMonth
  dsimp only
  split
  · split <;> omega
  · split <;> omega

theorem addMonths_startOfMonth (x : DT) (k : Int) :
    addMonths (startOfMonth x) k = ⟨x.mi + k, 1, 0⟩ := by
  simp [addMonths, startOfMonth, DT.mk.injEq]
  have := daysInMonth_pos (x.mi + k)
  omega

theorem singleClick_ordering (cfg : Config) (st : PState) (day : DT) :
    rangeOrdered ((singleClick cfg st day).2.getD ⟨none, none⟩) = true
    ∧ rangeOrdered (singleClick cfg st day).1.tempRange = true := by
  constructor
  all_goals unfold singleClick closeIf
  all_goals dsimp only
  all_goals repeat' split
  all_goals simp [rangeOrdered, dayLE_refl]

theorem sepLeftClick_ordering (cfg : Config) (st : PState) (day : DT) :
    rangeOrdered ((sepLeftClick cfg st day).2.getD ⟨none, none⟩) = true
    ∧ rangeOrdered (sepLeftClick cfg st day).1.tempRange = true := by
  constructor
  all_goals unfold sepLeftClick commitIfComplete closeIf
  all_goals dsimp only
  all_goals repeat' split
  all_goals simp [rangeOrdered, dayLE_refl]
  all_goals try simp only [Bool.not_eq_true] at *
  all_goals
    first
      | (apply dayLE_of_isBefore ; assumption)
      | (apply dayLE_of_isBefore_eq_false ; assumption)
      | (apply dayLE_of_isAfter ; assumption)
      | (apply dayLE_of_isAfter_eq_false ; assumption)

theorem sepRightClick_ordering (cfg : Config) (st : PState) (day : DT) :
    rangeOrdered ((sepRightClick cfg st day).2.getD ⟨none, none⟩) = true
    ∧ rangeOrdered (sepRightClick cfg st day).1.tempRange = true := by
  constructor
  all_goals unfold sepRightClick commitIfComplete closeIf
  all_goals dsimp only
  all_goals repeat' split
  all_goals simp [rangeOrdered, dayLE_refl]
  all_goals try simp only [Bool.not_eq_true] at *
  all_goals
    first
      | (apply dayLE_of_isBefore ; assumption)
      | (apply dayLE_of_isBefore_eq_false ; assumption)
      | (apply dayLE_of_isAfter ; assumption)
      | (apply dayLE_of_isAfter_eq_false ; assumption)

theorem freeClick_ordering (cfg : Config) (st : PState) (day : DT) :
    rangeOrdered ((freeClick cfg st day).2.getD ⟨none, none⟩) = true
    ∧ (rangeOrdered st.tempRange = true →
        rangeOrdered (freeClick cfg st day).1.tempRange = true) := by
  constructor
  all_goals unfold freeClick closeIf
  all_goals dsimp only
  · repeat' split
    all_goals simp [rangeOrdered, dayLE_refl]
    all_goals try simp only [Bool.not_eq_true] at *
    all_goals
      first
        | (apply dayLE_of_isBefore ; assumption)
        | (apply dayLE_of_isBefore_eq_false ; assumption)
        | (apply dayLE_of_isAfter ; assumption)
        | (apply dayLE_of_isAfter_eq_false ; assumption)
  · intro hord
    repeat' split
    all_goals simp [rangeOrdered, dayLE_refl]
    all_goals try simp only [Bool.not_eq_true] at *
    all_goals
      first
        | (apply dayLE_of_isBefore ; assumption)
        | (apply dayLE_of_isBefore_eq_false ; assumption)
        | (apply dayLE_of_isAfter ; assumption)
        | (apply dayLE_of_isAfter_eq_false ; assumption)
        | simp_all [rangeOrdered]

theorem applyTextPair_ordering (cfg : Config) (st : PState) (a b : DT) :
    rangeOrdered ((applyTextPair cfg st a b).2.getD ⟨none, none⟩) = true
    ∧ (rangeOrdered st.tempRange = true →
        rangeOrdered (applyTextPair cfg st a b).1.tempRange = true) := by
  constructor
  all_goals unfold applyTextPair
  all_goals dsimp only
  · repeat' split
    all_goals simp [rangeOrdered, dayLE_refl]
    all_goals try simp only [Bool.not_eq_true] at *
    all_goals
      first
        | (apply dayLE_of_sd_ed_isAfter ; assumption)
        | (apply dayLE_of_sd_ed_isAfter_eq_false ; assumption)
        | (apply dayLE_of_ed_sd_isBefore ; assumption)
        | (apply dayLE_of_ed_sd_isBefore_eq_false ; assumption)
  · intro hord
    repeat' split
    all_goals simp [rangeOrdered, dayLE_refl]
    all_goals try simp only [Bool.not_eq_true] at *
    all_goals
      first
        | (apply dayLE_of_sd_ed_isAfter ; assumption)
        | (apply dayLE_of_sd_ed_isAfter_eq_false ; assumption)
        | (apply dayLE_of_ed_sd_isBefore ; assumption)
        | (apply dayLE_of_ed_sd_isBefore_eq_false ; assumption)
        | simp_all [rangeOrdered]

theorem applyTextSingle_ordering (cfg : Config) (st : PState)
    (prs : List Char → Option DT) :
    rangeOrdered ((applyTextSingle cfg st prs).2.getD ⟨none, none⟩) = true
    ∧ (rangeOrdered st.tempRange = true →
        rangeOrdered (applyTextSingle cfg st prs).1.tempRange = true) := by
  constructor
  all_goals unfold applyTextSingle
  all_goals dsimp only
  · repeat' split
    all_goals simp [rangeOrdered, dayLE_refl]
  · intro hord
    repeat' split
    all_goals simp_all [rangeOrdered, dayLE_refl]

theorem handleDayClick_ordering (cfg : Config) (st : PState) (day : DT)
    (ci : Option Nat) :
    rangeOrdered ((handleDayClick cfg st day ci).2.getD ⟨none, none⟩) = true
    ∧ (rangeOrdered st.tempRange = true →
        rangeOrdered (handleDayClick cfg st day ci).1.tempRange = true) := by
  unfold handleDayClick
  dsimp only
  repeat' split
  · exact ⟨rfl, fun h => h⟩
  · exact ⟨(singleClick_ordering _ _ _).1, fun _ => (singleClick_ordering _ _ _).2⟩
  · exact ⟨(sepLeftClick_ordering _ _ _).1, fun _ => (sepLeftClick_ordering _ _ _).2⟩
  · exact ⟨(sepRightClick_ordering _ _ _).1, fun _ => (sepRightClick_ordering _ _ _).2⟩
  · exact ⟨(freeClick_ordering _ _ _).1, fun h => (freeClick_ordering _ _ _).2 h⟩

theorem applyText_ordering (cfg : Config) (st : PState)
    (prs : List Char → Option DT) :
    rangeOrdered ((applyText cfg st prs).2.getD ⟨none, none⟩) = true
    ∧ (rangeOrdered st.tempRange = true →
        rangeOrdered (applyText cfg st prs).1.tempRange = true) := by
  unfold applyText
  repeat' split
  · exact ⟨rfl, fun h => h⟩
  · exact ⟨(applyTextSingle_ordering _ _ _).1, fun h => (applyTextSingle_ordering _ _ _).2 h⟩
  · exact ⟨(applyTextPair_ordering _ _ _ _).1, fun h => (applyTextPair_ordering _ _ _ _).2 h⟩
  · exact ⟨rfl, fun h => h⟩
  · exact ⟨rfl, fun h => h⟩

/-- Shared concrete fixtures for witnesses and counterexamples. -/
def cfgFree : Config := ⟨none, none, true, true, false, false, false⟩

def cfgNoApply : Config := ⟨none, none, false, true, false, false, false⟩

def cfgMin : Config := ⟨some (mkDate 2024 1 15), none, true, true, false, false, false⟩

def st0 : PState :=
  ⟨false, mkDate 2024 6 1, mkDate 2024 7 1, none, ⟨none, none⟩, none, none, []⟩

def stDrop : PState :=
  ⟨false, mkDate 2024 6 1, mkDate 2024 7 1, none, ⟨none, none⟩, some 0, none, []⟩

def prsNone : List Char → Option DT := fun _ => none

/-- C1 (amended): every range emitted through `onChange` by a day click or a
text entry is ordered at day granularity, and both paths preserve orderedness
of the stored pending range; `applyPreset` stores and emits the preset's
produced range verbatim, so for the preset path the invariant holds exactly
when the preset's produced range is itself ordered. -/
theorem C1_range_ordering (cfg : Config) (st : PState) (day : DT)
    (ci : Option Nat) (prs : List Char → Option DT) (next : DateRange) :
    (rangeOrdered (((handleDayClick cfg st day ci).2).getD ⟨none, none⟩) = true)
    ∧ (rangeOrdered st.tempRange = true →
        rangeOrdered (handleDayClick cfg st day ci).1.tempRange = true)
    ∧ (rangeOrdered (((applyText cfg st prs).2).getD ⟨none, none⟩) = true)
    ∧ (rangeOrdered st.tempRange = true →
        rangeOrdered (applyText cfg st prs).1.tempRange = true)
    ∧ ((applyPreset cfg st next).1.tempRange = next)
    ∧ ((applyPreset cfg st next).2 = if cfg.autoApply then some next else none) := by
  refine ⟨(handleDayClick_ordering cfg st day ci).1,
          (handleDayClick_ordering cfg st day ci).2,
          (applyText_ordering cfg st prs).1,
          (applyText_ordering cfg st prs).2, ?_, ?_⟩
  all_goals unfold applyPreset closeIf
  all_goals dsimp only
  all_goals repeat' split
  all_goals rfl

/-- C1 counterexample: a preset producing an inverted pair is stored and
committed as-is, so a completed selection with `startDate > endDate` is
observable through the preset path. -/
theorem C1_counterexample :
    (applyPreset cfgFree st0 ⟨some (mkDate 2024 3 10), some (mkDate 2024 1 5)⟩).2
        = some ⟨some (mkDate 2024 3 10), some (mkDate 2024 1 5)⟩
    ∧ (applyPreset cfgFree st0 ⟨some (mkDate 2024 3 10), some (mkDate 2024 1 5)⟩).1.tempRange
        = ⟨some (mkDate 2024 3 10), some (mkDate 2024 1 5)⟩
    ∧ rangeOrdered ⟨some (mkDate 2024 3 10), some (mkDate 2024 1 5)⟩ = false := by
  decide

/-- C1 witness: the ordering theorem applied at a concrete free-click state. -/
theorem C1_range_ordering_witness :
    rangeOrdered (handleDayClick cfgFree st0 (mkDate 2024 3 5) none).1.tempRange = true :=
  (C1_range_ordering cfgFree st0 (mkDate 2024 3 5) none prsNone ⟨none, none⟩).2.1 (by decide)

/-- C4: in free-range mode, an accepted click with no start held (or a
complete pair held) starts a fresh pending range and clears the hover
preview; an accepted click with a start held and no end completes the pair,
swapped into order when the clicked day precedes the held start. -/
theorem C4_free_click (cfg : Config) (st : PState) (day : DT) (ci : Option Nat)
    (hsingle : cfg.singleDatePicker = false)
    (hsep : cfg.separateCalendars = false)
    (hdis : disableDate cfg day = false) :
    ((st.tempRange.startDate.isNone ||
        (st.tempRange.startDate.isSome && st.tempRange.endDate.isSome)) = true →
      handleDayClick cfg st day ci =
        ({ st with tempRange := ⟨some day, none⟩, hoverDate := none,
                   openYearDropdown := none, openMonthDropdown := none }, none))
    ∧ (∀ s, st.tempRange.startDate = some s → st.tempRange.endDate = none →
        (handleDayClick cfg st day ci).1.tempRange =
          (if isBefore day s then ⟨some day, some s⟩ else ⟨some s, some day⟩)
        ∧ (handleDayClick cfg st day ci).2 =
          (if cfg.autoApply then
            some (if isBefore day s then ⟨some day, some s⟩ else ⟨some s, some day⟩)
          else none)) := by
  constructor
  · intro hphase
    simp [handleDayClick, hdis, hsingle, hsep, freeClick, closeDropdowns, hphase]
  · intro s hs he
    have hphase : ((closeDropdowns st).tempRange.startDate.isNone ||
        ((closeDropdowns st).tempRange.startDate.isSome &&
          (closeDropdowns st).tempRange.endDate.isSome)) = false := by
      simp [closeDropdowns, hs, he]
    simp only [handleDayClick, hdis, hsingle, hsep, Bool.false_and]
    simp only [Bool.false_eq_true, if_false, if_true, ite_false]
    unfold freeClick
    rw [show (closeDropdowns st).tempRange = st.tempRange from rfl, hs, he]
    dsimp only
    constructor
    · split <;> split <;> simp_all [closeIf, closeDropdowns] <;> split <;> simp
    · split <;> split <;> simp_all [closeIf, closeDropdowns] <;> split <;> simp

/-- C4 witness: the spec scenario — clicking 2024-03-10 then 2024-03-05 in
free-click range mode yields the swapped pending pair. -/
theorem C4_free_click_witness :
    (handleDayClick cfgFree (handleDayClick cfgFree st0 (mkDate 2024 3 10) none).1
        (mkDate 2024 3 5) none).1.tempRange
      = ⟨some (mkDate 2024 3 5), some (mkDate 2024 3 10)⟩ := by
  have h := (C4_free_click cfgFree (handleDayClick cfgFree st0 (mkDate 2024 3 10) none).1
      (mkDate 2024 3 5) none rfl rfl (by decide)).2 (mkDate 2024 3 10)
      (by decide) (by decide)
  rw [h.1]
  decide

/-- C7 (amended): both preset entry points set the pending range directly
(bypassing the phase machine) and commit exactly when auto-apply is on;
`applyPresetDate` re-centers both view cursors on the produced day, but
`applyPreset` leaves both cursors untouched — for range presets re-centering
happens only through the committed-value reset effect once the commit is
pushed back. -/
theorem C7_preset_apply (cfg : Config) (st : PState) (r : DateRange)
    (d s : DT) :
    ((applyPreset cfg st r).1.tempRange = r)
    ∧ ((applyPreset cfg st r).1.viewDateStart = st.viewDateStart)
    ∧ ((applyPreset cfg st r).1.viewDateEnd = st.viewDateEnd)
    ∧ ((applyPreset cfg st r).2 = (if cfg.autoApply then some r else none))
    ∧ ((applyPresetDate cfg st d).1.tempRange = ⟨some d, some d⟩)
    ∧ ((applyPresetDate cfg st d).1.viewDateStart = startOfMonth d)
    ∧ ((applyPresetDate cfg st d).1.viewDateEnd = addMonths (startOfMonth d) 1)
    ∧ ((applyPresetDate cfg st d).2 =
        (if cfg.autoApply then some ⟨some d, some d⟩ else none))
    ∧ (r.startDate = some s →
        (resetCursors r (applyPreset cfg st r).1).viewDateStart = startOfMonth s) := by
  refine ⟨?_, ?_, ?_, ?_, ?_, ?_, ?_, ?_, ?_⟩
  · unfold applyPreset closeIf
    dsimp only
    repeat' split
    all_goals rfl
  · unfold applyPreset closeIf
    dsimp only
    repeat' split
    all_goals rfl
  · unfold applyPreset closeIf
    dsimp only
    repeat' split
    all_goals rfl
  · unfold applyPreset closeIf
    dsimp only
    repeat' split
    all_goals simp_all
  · unfold applyPresetDate closeIf
    dsimp only
    repeat' split
    all_goals rfl
  · unfold applyPresetDate closeIf
    dsimp only
    repeat' split
    all_goals rfl
  · unfold applyPresetDate closeIf
    dsimp only
    repeat' split
    all_goals rfl
  · unfold applyPresetDate closeIf
    dsimp only
    repeat' split
    all_goals simp_all
  · intro hs
    unfold resetCursors
    rw [hs]

/-- C7 counterexample: without auto-apply, applying a range preset stores the
pending range but leaves both view cursors where they were (June/July 2024
while the preset's range is in January 2024), and emits nothing — the
navigator is not re-centered. -/
theorem C7_counterexample :
    (applyPreset cfgNoApply st0 ⟨some (mkDate 2024 1 5), some (mkDate 2024 1 20)⟩).1.tempRange
        = ⟨some (mkDate 2024 1 5), some (mkDate 2024 1 20)⟩
    ∧ (applyPreset cfgNoApply st0 ⟨some (mkDate 2024 1 5), some (mkDate 2024 1 20)⟩).1.viewDateStart
        = st0.viewDateStart
    ∧ (applyPreset cfgNoApply st0 ⟨some (mkDate 2024 1 5), some (mkDate 2024 1 20)⟩).1.viewDateEnd
        = st0.viewDateEnd
    ∧ st0.viewDateStart ≠ startOfMonth (mkDate 2024 1 5)
    ∧ (applyPreset cfgNoApply st0 ⟨some (mkDate 2024 1 5), some (mkDate 2024 1 20)⟩).2 = none := by
  decide

/-- C7 witness: the amended theorem applied at a concrete preset. -/
theorem C7_preset_apply_witness :
    (resetCursors ⟨some (mkDate 2024 1 5), some (mkDate 2024 1 20)⟩
        (applyPreset cfgFree st0 ⟨some (mkDate 2024 1 5), some (mkDate 2024 1 20)⟩).1).viewDateStart
      = startOfMonth (mkDate 2024 1 5) :=
  (C7_preset_apply cfgFree st0 ⟨some (mkDate 2024 1 5), some (mkDate 2024 1 20)⟩
      (mkDate 2024 1 5) (mkDate 2024 1 5)).2.2.2.2.2.2.2.2 (by decide)

theorem addMonths_one_d (mi k : Int) : (addMonths ⟨mi, 1, 0⟩ k).d = 1 := by
  simp [addMonths]
  have := daysInMonth_pos (mi + k)
  omega

theorem addMonths_one_t (mi k : Int) : (addMonths ⟨mi, 1, 0⟩ k).t = 0 := rfl

theorem applyTextSingle_cursors (cfg : Config) (st : PState)
    (prs : List Char → Option DT) :
    ((applyTextSingle cfg st prs).1.viewDateStart = st.viewDateStart
      ∨ ((applyTextSingle cfg st prs).1.viewDateStart.d = 1
        ∧ (applyTextSingle cfg st prs).1.viewDateStart.t = 0))
    ∧ ((applyTextSingle cfg st prs).1.viewDateEnd = st.viewDateEnd
      ∨ ((applyTextSingle cfg st prs).1.viewDateEnd.d = 1
        ∧ (applyTextSingle cfg st prs).1.viewDateEnd.t = 0)) := by
  constructor
  all_goals unfold applyTextSingle
  all_goals dsimp only
  all_goals repeat' split
  all_goals simp [startOfMonth, addMonths_startOfMonth, addMonths_one_d, addMonths_one_t]

theorem applyTextPair_cursors (cfg : Config) (st : PState) (a b : DT) :
    ((applyTextPair cfg st a b).1.viewDateStart = st.viewDateStart
      ∨ ((applyTextPair cfg st a b).1.viewDateStart.d = 1
        ∧ (applyTextPair cfg st a b).1.viewDateStart.t = 0))
    ∧ ((applyTextPair cfg st a b).1.viewDateEnd = st.viewDateEnd
      ∨ ((applyTextPair cfg st a b).1.viewDateEnd.d = 1
        ∧ (applyTextPair cfg st a b).1.viewDateEnd.t = 0)) := by
  constructor
  all_goals unfold applyTextPair
  all_goals dsimp only
  all_goals repeat' split
  all_goals simp [startOfMonth, addMonths_startOfMonth, addMonths_one_d, addMonths_one_t]

theorem applyText_cursors (cfg : Config) (st : PState)
    (prs : List Char → Option DT) :
    ((applyText cfg st prs).1.viewDateStart = st.viewDateStart
      ∨ ((applyText cfg st prs).1.viewDateStart.d = 1
        ∧ (applyText cfg st prs).1.viewDateStart.t = 0))
    ∧ ((applyText cfg st prs).1.viewDateEnd = st.viewDateEnd
      ∨ ((applyText cfg st prs).1.viewDateEnd.d = 1
        ∧ (applyText cfg st prs).1.viewDateEnd.t = 0)) := by
  unfold applyText
  repeat' split
  · exact ⟨Or.inl rfl, Or.inl rfl⟩
  · exact applyTextSingle_cursors cfg st prs
  · exact applyTextPair_cursors cfg st _ _
  · exact ⟨Or.inl rfl, Or.inl rfl⟩
  · exact ⟨Or.inl rfl, Or.inl rfl⟩

/-- C9 (amended): the cursors are normalized to the first day of their month
after any committed-value reset with a start date, after any accepted
month/year quick-jump (for the jumped cursor, the other being untouched),
after a single-date preset, and after any successful text entry (stated as:
each text-entry result cursor is either unchanged or month-normalized);
initial seeding and arrow paging, by contrast, preserve the seeded
day-of-month, so the initial state need not hold a month start. -/
theorem C9_cursor_normalization (cfg : Config) (st : PState) (v : DateRange)
    (s jt d : DT) (i : Nat) (prs : List Char → Option DT) :
    (v.startDate = some s →
      (resetCursors v st).viewDateStart.d = 1
      ∧ (resetCursors v st).viewDateStart.t = 0
      ∧ (resetCursors v st).viewDateEnd.d = 1
      ∧ (resetCursors v st).viewDateEnd.t = 0)
    ∧ (quickJumpDisabled cfg st i jt = false →
        (quickJump cfg st i jt).viewDateStart
            = (if i = 0 then startOfMonth jt else st.viewDateStart)
        ∧ (quickJump cfg st i jt).viewDateEnd
            = (if i = 0 then st.viewDateEnd else startOfMonth jt))
    ∧ ((applyPresetDate cfg st d).1.viewDateStart.d = 1
      ∧ (applyPresetDate cfg st d).1.viewDateStart.t = 0
      ∧ (applyPresetDate cfg st d).1.viewDateEnd.d = 1
      ∧ (applyPresetDate cfg st d).1.viewDateEnd.t = 0)
    ∧ (((applyText cfg st prs).1.viewDateStart = st.viewDateStart
        ∨ ((applyText cfg st prs).1.viewDateStart.d = 1
          ∧ (applyText cfg st prs).1.viewDateStart.t = 0))
      ∧ ((applyText cfg st prs).1.viewDateEnd = st.viewDateEnd
        ∨ ((applyText cfg st prs).1.viewDateEnd.d = 1
          ∧ (applyText cfg st prs).1.viewDateEnd.t = 0))) := by
  refine ⟨?_, ?_, ?_, applyText_cursors cfg st prs⟩
  · intro hs
    unfold resetCursors
    rw [hs]
    dsimp only
    repeat' split
    all_goals simp [startOfMonth, addMonths_startOfMonth, addMonths_one_d, addMonths_one_t]
  · intro hj
    unfold quickJump handleMonthYearChange
    rw [hj]
    dsimp only
    split
    · simp_all
    split
    all_goals rename_i hi
    all_goals simp [hi, startOfMonth]
  · unfold applyPresetDate closeIf
    dsimp only
    repeat' split
    all_goals simp [startOfMonth, addMonths_startOfMonth, addMonths_one_d, addMonths_one_t]

/-- C9 counterexample: with no committed start date, the initial state seeds
the left cursor with today itself (2026-10-11), not the first day of its
month, and the committed-value reset effect does not normalize it either. -/
theorem C9_counterexample :
    (initState ⟨none, none⟩ (mkDate 2026 10 11)).viewDateStart.d ≠ 1
    ∧ (resetCursors ⟨none, none⟩
        (initState ⟨none, none⟩ (mkDate 2026 10 11))).viewDateStart.d ≠ 1
    ∧ (resetCursors ⟨none, none⟩
        (initState ⟨none, none⟩ (mkDate 2026 10 11))).viewDateEnd.d ≠ 1 := by
  decide

/-- C9 witness: the normalization theorem applied at a concrete reset. -/
theorem C9_cursor_normalization_witness :
    (resetCursors ⟨some (mkDate 2024 6 15), some (mkDate 2024 9 10)⟩ st0).viewDateStart.d = 1 :=
  ((C9_cursor_normalization cfgFree st0
      ⟨some (mkDate 2024 6 15), some (mkDate 2024 9 10)⟩ (mkDate 2024 6 15)
      (mkDate 2024 1 1) (mkDate 2024 1 1) 0 prsNone).1 (by decide)).1

def cfgSingle : Config := ⟨none, none, true, true, true, false, true⟩

/-- C10: in single-date mode every operation that sets the pending or
committed selection — an accepted day click, a single-date preset, and a
successful text entry — produces a degenerate range whose startDate and
endDate are the same day, and commits that same degenerate range exactly
when auto-apply is on. -/
theorem C10_single_selection (cfg : Config) (st : PState) (day d p : DT)
    (ci : Option Nat) (prs : List Char → Option DT)
    (hsingle : cfg.singleDatePicker = true) :
    (disableDate cfg day = false →
      (handleDayClick cfg st day ci).1.tempRange = ⟨some day, some day⟩
      ∧ (handleDayClick cfg st day ci).2 =
          (if cfg.autoApply then some ⟨some day, some day⟩ else none))
    ∧ ((applyPresetDate cfg st d).1.tempRange = ⟨some d, some d⟩
      ∧ (applyPresetDate cfg st d).2 =
          (if cfg.autoApply then some ⟨some d, some d⟩ else none))
    ∧ (cfg.editable = true → prs (trim st.textValue) = some p →
        disableDate cfg p = false →
      (applyText cfg st prs).1.tempRange = ⟨some p, some p⟩
      ∧ (applyText cfg st prs).2 =
          (if cfg.autoApply then some ⟨some p, some p⟩ else none)) := by
  refine ⟨?_, ?_, ?_⟩
  · intro hdis
    simp only [handleDayClick, hdis, hsingle]
    unfold singleClick closeIf
    dsimp only
    repeat' split
    all_goals simp_all
  · unfold applyPresetDate closeIf
    dsimp only
    repeat' split
    all_goals simp_all
  · intro hed hp hdis
    simp only [applyText, hed, hsingle, Bool.not_true, Bool.false_eq_true,
      if_false, if_true]
    unfold applyTextSingle
    rw [hp]
    dsimp only
    rw [hdis]
    repeat' split
    all_goals simp_all

/-- C10 witness: the theorem applied at a concrete accepted click. -/
theorem C10_single_selection_witness :
    (handleDayClick cfgSingle st0 (mkDate 2024 1 10) none).1.tempRange
      = ⟨some (mkDate 2024 1 10), some (mkDate 2024 1 10)⟩ :=
  ((C10_single_selection cfgSingle st0 (mkDate 2024 1 10) (mkDate 2024 1 1)
      (mkDate 2024 1 1) none prsNone rfl).1 (by decide)).1


/-- The disjunction of conditions under which `handlePrev` refuses to move:
the min-bound arrow guard, the separate-mode ordering guard, and the
linked-mode minimum-separation guard. -/
def prevRefused (cfg : Config) (st : PState) (i : Nat) : Bool :=
  !getCanGoPrev cfg st i ||
  (if i = 0 then
     (match cfg.separateCalendars, st.tempRange.endDate with
      | true, some e =>
          !isBefore (startOfMonth (addMonths st.viewDateStart (-1))) (startOfMonth e)
      | _, _ => false)
   else
     (match cfg.separateCalendars, st.tempRange.startDate with
      | true, some s =>
          !isAfter (startOfMonth (addMonths st.viewDateEnd (-1))) (startOfMonth s)
      | _, _ => false)
     ||
     (!cfg.singleDatePicker && !cfg.separateCalendars &&
        isBefore (startOfMonth (addMonths st.viewDateEnd (-1)))
          (addMonths (startOfMonth st.viewDateStart) 1)))

/-- The disjunction of conditions under which `handleNext` refuses to move. -/
def nextRefused (cfg : Config) (st : PState) (i : Nat) : Bool :=
  !getCanGoNext cfg st i ||
  (if i = 0 then
     (match cfg.separateCalendars, st.tempRange.endDate with
      | true, some e =>
          !isBefore (startOfMonth (addMonths st.viewDateStart 1)) (startOfMonth e)
      | _, _ => false)
     ||
     (!cfg.singleDatePicker && !cfg.separateCalendars &&
        !isBefore (startOfMonth (addMonths st.viewDateStart 1)) (startOfMonth st.viewDateEnd))
   else
     (match cfg.separateCalendars, st.tempRange.startDate with
      | true, some s =>
          !isAfter (startOfMonth (addMonths st.viewDateEnd 1)) (startOfMonth s)
      | _, _ => false))

/-- Failure of the single-mode text parse: unparseable or out of bounds. -/
def singleTextRejected (cfg : Config) (tv : List Char)
    (prs : List Char → Option DT) : Bool :=
  match prs (trim tv) with
  | some p => disableDate cfg p
  | none => true

/-- Failure of the range-mode text parse: the split is not exactly two
tokens, either token is unparseable, or either parsed day is disabled. -/
def rangeTextRejected (cfg : Config) (tv : List Char)
    (prs : List Char → Option DT) : Bool :=
  match splitOnTilde tv with
  | [p0, p1] =>
    match prs (trim p0), prs (trim p1) with
    | some a, some b => disableDate cfg a || disableDate cfg b
    | _, _ => true
  | _ => true

theorem handlePrev_refused (cfg : Config) (st : PState) (i : Nat)
    (h : prevRefused cfg st i = true) : handlePrev cfg st i = st := by
  unfold prevRefused at h
  unfold handlePrev
  repeat' split
  all_goals simp_all

theorem handleNext_refused (cfg : Config) (st : PState) (i : Nat)
    (h : nextRefused cfg st i = true) : handleNext cfg st i = st := by
  unfold nextRefused at h
  unfold handleNext
  repeat' split
  all_goals simp_all


theorem applyText_single_rejected (cfg : Config) (st : PState)
    (prs : List Char → Option DT) (he : cfg.editable = true)
    (hs : cfg.singleDatePicker = true)
    (hrej : singleTextRejected cfg st.textValue prs = true) :
    applyText cfg st prs = (st, none) := by
  unfold singleTextRejected at hrej
  rcases hp : prs (trim st.textValue) with _ | p
  · simp [applyText, applyTextSingle, he, hs, hp]
  · rw [hp] at hrej
    dsimp only at hrej
    simp [applyText, applyTextSingle, he, hs, hp, hrej]

theorem applyText_range_rejected (cfg : Config) (st : PState)
    (prs : List Char → Option DT) (he : cfg.editable = true)
    (hs : cfg.singleDatePicker = false)
    (hrej : rangeTextRejected cfg st.textValue prs = true) :
    applyText cfg st prs = (st, none) := by
  unfold rangeTextRejected at hrej
  simp only [applyText, he, hs, Bool.not_true, Bool.false_eq_true, if_false]
  unfold applyTextPair
  repeat' split
  all_goals simp_all

theorem quickJump_refused (cfg : Config) (st : PState) (i : Nat) (jt : DT)
    (h : quickJumpDisabled cfg st i jt = true) : quickJump cfg st i jt = st := by
  simp [quickJump, h]

end DRP

namespace DRP

def cfgEdit : Config := ⟨none, none, true, true, false, false, true⟩

def stJan : PState :=
  ⟨false, mkDate 2024 1 1, mkDate 2024 2 1, none, ⟨none, none⟩, none, none, []⟩

def stText : PState :=
  ⟨false, mkDate 2024 6 1, mkDate 2024 7 1, none, ⟨none, none⟩, none, none,
    ['a', 'b', 'c']⟩

/-- C2 (amended): every rejected navigation (arrow page or quick-jump) and
every rejected text entry leaves the entire controller state exactly as it
was and emits no change notification; a day click on a disabled day likewise
emits nothing and leaves the pending selection, view cursors, hover preview
and text value untouched, but it does reset both dropdown-open indices to
closed before the disabled check. -/
theorem C2_rejected_no_change (cfg : Config) (st : PState) (day jt : DT)
    (ci : Option Nat) (i : Nat) (prs : List Char → Option DT) :
    (disableDate cfg day = true →
      handleDayClick cfg st day ci =
        ({ st with openYearDropdown := none, openMonthDropdown := none }, none))
    ∧ (prevRefused cfg st i = true → handlePrev cfg st i = st)
    ∧ (nextRefused cfg st i = true → handleNext cfg st i = st)
    ∧ (quickJumpDisabled cfg st i jt = true → quickJump cfg st i jt = st)
    ∧ (cfg.editable = true → cfg.singleDatePicker = true →
        singleTextRejected cfg st.textValue prs = true →
        applyText cfg st prs = (st, none))
    ∧ (cfg.editable = true → cfg.singleDatePicker = false →
        rangeTextRejected cfg st.textValue prs = true →
        applyText cfg st prs = (st, none)) := by
  refine ⟨?_, handlePrev_refused cfg st i, handleNext_refused cfg st i,
    quickJump_refused cfg st i jt,
    fun he hs => applyText_single_rejected cfg st prs he hs,
    fun he hs => applyText_range_rejected cfg st prs he hs⟩
  intro h
  simp [handleDayClick, h, closeDropdowns]

/-- C2 counterexample: a click on a disabled day with the year dropdown open
does change the controller state — the dropdown is closed before the
disabled-day guard runs — so the state is not left exactly as it was. -/
theorem C2_counterexample :
    disableDate cfgMin (mkDate 2024 1 1) = true
    ∧ (handleDayClick cfgMin stDrop (mkDate 2024 1 1) none).2 = none
    ∧ (handleDayClick cfgMin stDrop (mkDate 2024 1 1) none).1 ≠ stDrop
    ∧ (handleDayClick cfgMin stDrop (mkDate 2024 1 1) none).1.openYearDropdown = none
    ∧ stDrop.openYearDropdown = some 0 := by
  decide

/-- C2 witness: a min-bound-refused left-arrow page leaves the state
unchanged. -/
theorem C2_rejected_no_change_witness : handlePrev cfgMin stJan 0 = stJan :=
  (C2_rejected_no_change cfgMin stJan (mkDate 2024 1 1) (mkDate 2024 1 1)
      none 0 prsNone).2.1 (by decide)

/-- C6: a range-mode text entry whose split on `~` does not give exactly two
tokens, or either of whose tokens fails to parse, or either of whose parsed
days is disabled, is rejected as a whole: the state (pending selection
included) is unchanged and no commit is emitted, so partial acceptance of one
endpoint never occurs. -/
theorem C6_range_text_rejection (cfg : Config) (st : PState)
    (prs : List Char → Option DT) (he : cfg.editable = true)
    (hs : cfg.singleDatePicker = false)
    (hrej : rangeTextRejected cfg st.textValue prs = true) :
    applyText cfg st prs = (st, none) :=
  applyText_range_rejected cfg st prs he hs hrej

/-- C6 witness: the rejection theorem applied to an unparseable text. -/
theorem C6_range_text_rejection_witness :
    applyText cfgEdit stText prsNone = (stText, none) :=
  C6_range_text_rejection cfgEdit stText prsNone rfl rfl (by decide)


theorem isBefore_som (a b : DT) :
    isBefore (startOfMonth a) (startOfMonth b) = decide (a.mi < b.mi) := by
  simp [isBefore, startOfMonth]

theorem isAfter_som (a b : DT) :
    isAfter (startOfMonth a) (startOfMonth b) = decide (b.mi < a.mi) := by
  simp [isAfter, isBefore, startOfMonth]

/-- C5: in separateCalendars mode, when `pending.end` is set the left cursor
never moves to a month at or after the month containing it (arrows and
quick-jumps alike), and when `pending.start` is set the right cursor never
moves to a month at or before the month containing it; when the opposite
endpoint is unset the cursor moves with no cross-calendar constraint, the
arrows being limited only by the min/max bounds and the quick-jump not at
all. -/
theorem C5_separate_navigation (cfg : Config) (st : PState) (e s jt : DT)
    (hsep : cfg.separateCalendars = true)
    (hsingle : cfg.singleDatePicker = false) :
    (st.tempRange.endDate = some e →
      ((handlePrev cfg st 0).viewDateStart = st.viewDateStart
        ∨ (handlePrev cfg st 0).viewDateStart.mi < e.mi)
      ∧ ((handleNext cfg st 0).viewDateStart = st.viewDateStart
        ∨ (handleNext cfg st 0).viewDateStart.mi < e.mi)
      ∧ (quickJumpDisabled cfg st 0 jt = false →
          (quickJump cfg st 0 jt).viewDateStart.mi < e.mi))
    ∧ (st.tempRange.startDate = some s →
      ((handlePrev cfg st 1).viewDateEnd = st.viewDateEnd
        ∨ s.mi < (handlePrev cfg st 1).viewDateEnd.mi)
      ∧ ((handleNext cfg st 1).viewDateEnd = st.viewDateEnd
        ∨ s.mi < (handleNext cfg st 1).viewDateEnd.mi)
      ∧ (quickJumpDisabled cfg st 1 jt = false →
          s.mi < (quickJump cfg st 1 jt).viewDateEnd.mi))
    ∧ (st.tempRange.endDate = none →
      (getCanGoPrev cfg st 0 = true →
        handlePrev cfg st 0 = { st with viewDateStart := addMonths st.viewDateStart (-1) })
      ∧ (getCanGoNext cfg st 0 = true →
        handleNext cfg st 0 = { st with viewDateStart := addMonths st.viewDateStart 1 })
      ∧ quickJumpDisabled cfg st 0 jt = false
      ∧ (quickJump cfg st 0 jt).viewDateStart = startOfMonth jt)
    ∧ (st.tempRange.startDate = none →
      (getCanGoPrev cfg st 1 = true →
        handlePrev cfg st 1 = { st with viewDateEnd := addMonths st.viewDateEnd (-1) })
      ∧ (getCanGoNext cfg st 1 = true →
        handleNext cfg st 1 = { st with viewDateEnd := addMonths st.viewDateEnd 1 })
      ∧ quickJumpDisabled cfg st 1 jt = false
      ∧ (quickJump cfg st 1 jt).viewDateEnd = startOfMonth jt) := by
  refine ⟨fun hend => ⟨?_, ?_, ?_⟩, fun hstart => ⟨?_, ?_, ?_⟩,
    fun hend => ⟨?_, ?_, ?_, ?_⟩, fun hstart => ⟨?_, ?_, ?_, ?_⟩⟩
  · simp only [handlePrev, hsep, hend]
    repeat' split
    all_goals simp_all [isBefore_som, addMonths]
  · simp only [handleNext, hsep, hend]
    repeat' split
    all_goals simp_all [isBefore_som, addMonths]
  · intro hj
    have hj2 := hj
    simp only [quickJumpDisabled, hsingle, hsep, hend] at hj2
    simp only [quickJump, hj, Bool.false_eq_true, if_false,
      handleMonthYearChange, if_true]
    simp_all [isBefore_som, startOfMonth]
    simp [isBefore] at hj2
    omega
  · simp only [handlePrev, hsep, hstart]
    repeat' split
    all_goals simp_all [isAfter_som, addMonths]
  · simp only [handleNext, hsep, hstart]
    repeat' split
    all_goals simp_all [isAfter_som, addMonths]
  · intro hj
    have hj2 := hj
    simp only [quickJumpDisabled, hsingle, hsep, hstart] at hj2
    simp only [quickJump, hj, Bool.false_eq_true, if_false,
      handleMonthYearChange, if_true]
    simp_all [isAfter_som, startOfMonth]
    simp [isAfter, isBefore] at hj2
    omega
  · intro hcan
    simp [handlePrev, hsep, hsingle, hend, hcan]
  · intro hcan
    simp [handleNext, hsep, hsingle, hend, hcan]
  · simp [quickJumpDisabled, hsingle, hsep, hend]
  · have hj : quickJumpDisabled cfg st 0 jt = false := by
      simp [quickJumpDisabled, hsingle, hsep, hend]
    simp [quickJump, hj, handleMonthYearChange]
  · intro hcan
    simp [handlePrev, hsep, hsingle, hstart, hcan]
  · intro hcan
    simp [handleNext, hsep, hsingle, hstart, hcan]
  · simp [quickJumpDisabled, hsingle, hsep, hstart]
  · have hj : quickJumpDisabled cfg st 1 jt = false := by
      simp [quickJumpDisabled, hsingle, hsep, hstart]
    simp [quickJump, hj, handleMonthYearChange]


def cfgSep : Config := ⟨none, none, true, true, false, true, false⟩

def stSep : PState :=
  ⟨false, mkDate 2024 1 1, mkDate 2024 2 1, none,
    ⟨some (mkDate 2024 1 5), some (mkDate 2024 1 20)⟩, none, none, []⟩

/-- C5 witness: the constraint theorem applied at a concrete From-To state. -/
theorem C5_separate_navigation_witness :
    (handlePrev cfgSep stSep 0).viewDateStart = stSep.viewDateStart
    ∨ (handlePrev cfgSep stSep 0).viewDateStart.mi < (mkDate 2024 1 20).mi :=
  ((C5_separate_navigation cfgSep stSep (mkDate 2024 1 20) (mkDate 2024 1 5)
      (mkDate 2024 1 1) rfl rfl).1 rfl).1


/-- A committed value whose endpoints, when both present, are in month
order (the documented invariant of committed ranges). -/
def monthOrdered (v : DateRange) : Bool :=
  match v.startDate, v.endDate with
  | some a, some b => decide (a.mi ≤ b.mi)
  | _, _ => true

/-- One cursor-moving event of the navigator: an arrow page on either
calendar, a month/year quick-jump on either calendar, or a committed-value
reset with a month-ordered value. -/
inductive StepL (cfg : Config) : PState → PState → Prop where
  | prev (i : Nat) (st : PState) : StepL cfg st (handlePrev cfg st i)
  | next (i : Nat) (st : PState) : StepL cfg st (handleNext cfg st i)
  | jump (i : Nat) (jt : DT) (st : PState) : StepL cfg st (quickJump cfg st i jt)
  | reset (v : DateRange) (st : PState) (hv : monthOrdered v = true) :
      StepL cfg st (resetCursors v st)

/-- States reachable from the initial seeding by navigator events. -/
inductive ReachableL (cfg : Config) (v0 : DateRange) (today : DT) :
    PState → Prop where
  | init : ReachableL cfg v0 today (initState v0 today)
  | step {st st' : PState} : ReachableL cfg v0 today st → StepL cfg st st' →
      ReachableL cfg v0 today st'

theorem handlePrev_linked_inv (cfg : Config) (st : PState) (i : Nat)
    (hsingle : cfg.singleDatePicker = false)
    (hsep : cfg.separateCalendars = false)
    (h : st.viewDateStart.mi < st.viewDateEnd.mi) :
    (handlePrev cfg st i).viewDateStart.mi < (handlePrev cfg st i).viewDateEnd.mi := by
  unfold handlePrev
  repeat' split
  all_goals simp_all [isBefore, addMonths, startOfMonth]
  all_goals try split
  all_goals try simp_all
  all_goals omega

theorem handleNext_linked_inv (cfg : Config) (st : PState) (i : Nat)
    (hsingle : cfg.singleDatePicker = false)
    (hsep : cfg.separateCalendars = false)
    (h : st.viewDateStart.mi < st.viewDateEnd.mi) :
    (handleNext cfg st i).viewDateStart.mi < (handleNext cfg st i).viewDateEnd.mi := by
  unfold handleNext
  repeat' split
  all_goals simp_all [isBefore, addMonths, startOfMonth]
  all_goals try split
  all_goals try simp_all
  all_goals omega

theorem quickJump_linked_inv (cfg : Config) (st : PState) (i : Nat) (jt : DT)
    (hsingle : cfg.singleDatePicker = false)
    (hsep : cfg.separateCalendars = false)
    (h : st.viewDateStart.mi < st.viewDateEnd.mi) :
    (quickJump cfg st i jt).viewDateStart.mi < (quickJump cfg st i jt).viewDateEnd.mi := by
  unfold quickJump quickJumpDisabled handleMonthYearChange
  repeat' split
  all_goals simp_all [isBefore, isAfter, startOfMonth]
  all_goals omega

theorem resetCursors_linked_inv (v : DateRange) (st : PState)
    (hv : monthOrdered v = true)
    (h : st.viewDateStart.mi < st.viewDateEnd.mi) :
    (resetCursors v st).viewDateStart.mi < (resetCursors v st).viewDateEnd.mi := by
  unfold resetCursors
  unfold monthOrdered at hv
  repeat' split
  all_goals simp_all [isSameMonth, addMonths, startOfMonth]
  all_goals omega

theorem StepL_linked_inv (cfg : Config) {a b : PState} (hs : StepL cfg a b)
    (hsingle : cfg.singleDatePicker = false)
    (hsep : cfg.separateCalendars = false)
    (h : a.viewDateStart.mi < a.viewDateEnd.mi) :
    b.viewDateStart.mi < b.viewDateEnd.mi := by
  cases hs with
  | prev i st => exact handlePrev_linked_inv cfg a i hsingle hsep h
  | next i st => exact handleNext_linked_inv cfg a i hsingle hsep h
  | jump i jt st => exact quickJump_linked_inv cfg a i jt hsingle hsep h
  | reset v st hv => exact resetCursors_linked_inv v a hv h

/-- C3 (amended): in linked (free-range) mode, every state reachable from the
initial seeding by arrow paging, month/year quick-jumps, and month-ordered
committed-value resets has the right cursor in a strictly later month than
the left cursor; and after any arrow page performed via the left calendar the
right cursor's month is exactly the left cursor's month plus one (a
month/year quick-jump via the left calendar moves the left cursor alone and
preserves only the strict inequality). -/
theorem C3_linked_invariant (cfg : Config) (v0 : DateRange) (today : DT)
    (st : PState)
    (hsingle : cfg.singleDatePicker = false)
    (hsep : cfg.separateCalendars = false)
    (hreach : ReachableL cfg v0 today st) :
    st.viewDateStart.mi < st.viewDateEnd.mi
    ∧ (∀ st2 : PState, handlePrev cfg st2 0 = st2
        ∨ (handlePrev cfg st2 0).viewDateEnd.mi
            = (handlePrev cfg st2 0).viewDateStart.mi + 1)
    ∧ (∀ st2 : PState, handleNext cfg st2 0 = st2
        ∨ (handleNext cfg st2 0).viewDateEnd.mi
            = (handleNext cfg st2 0).viewDateStart.mi + 1) := by
  refine ⟨?_, ?_, ?_⟩
  · induction hreach with
    | init =>
      simp [initState, addMonths]
    | step hst hstep ih => exact StepL_linked_inv cfg hstep hsingle hsep ih
  · intro st2
    unfold handlePrev
    repeat' split
    all_goals simp_all [isBefore, addMonths, startOfMonth]
    all_goals try split
    all_goals try simp_all
    all_goals omega
  · intro st2
    unfold handleNext
    repeat' split
    all_goals simp_all [isBefore, addMonths, startOfMonth]
    all_goals try split
    all_goals try simp_all
    all_goals omega

def v3 : DateRange := ⟨some (mkDate 2024 6 15), some (mkDate 2024 9 10)⟩

def st3a : PState := resetCursors v3 (initState v3 (mkDate 2024 1 1))

def st3b : PState := quickJump cfgFree st3a 0 (mkDate 2024 7 1)

/-- C3 counterexample: from the reachable state with cursors June/September
2024 (a committed-value reset of an ordered range spanning four months), a
month/year quick-jump performed via the left calendar moves the left cursor
to July while the right cursor stays on September — navigation via the left
calendar without `right = left + 1 month`. -/
theorem C3_counterexample :
    ReachableL cfgFree v3 (mkDate 2024 1 1) st3b
    ∧ st3b.viewDateStart ≠ st3a.viewDateStart
    ∧ st3b.viewDateEnd.mi ≠ st3b.viewDateStart.mi + 1 := by
  refine ⟨?_, by decide, by decide⟩
  exact ReachableL.step
    (ReachableL.step ReachableL.init (StepL.reset v3 _ (by decide)))
    (StepL.jump 0 (mkDate 2024 7 1) _)

/-- C3 witness: the invariant theorem applied to the initial state. -/
theorem C3_linked_invariant_witness :
    (initState v3 (mkDate 2024 1 1)).viewDateStart.mi
      < (initState v3 (mkDate 2024 1 1)).viewDateEnd.mi :=
  (C3_linked_invariant cfgFree v3 (mkDate 2024 1 1)
      (initState v3 (mkDate 2024 1 1)) rfl rfl ReachableL.init).1


/-- Decimal digit character (inputs are always taken mod 10 by the callers). -/
def digitChar (n : Nat) : Char :=
  match n with
  | 0 => '0' | 1 => '1' | 2 => '2' | 3 => '3' | 4 => '4'
  | 5 => '5' | 6 => '6' | 7 => '7' | 8 => '8' | _ => '9'

/-- Numeric value of a digit character. -/
def charVal (c : Char) : Nat := c.toNat - 48

/-- Digit test on characters. -/
def isDigitCh (c : Char) : Bool :=
  decide (48 ≤ c.toNat) && decide (c.toNat ≤ 57)

def pad2 (n : Nat) : List Char := [digitChar (n / 10 % 10), digitChar (n % 10)]

def pad4 (n : Nat) : List Char :=
  [digitChar (n / 1000 % 10), digitChar (n / 100 % 10),
   digitChar (n / 10 % 10), digitChar (n % 10)]

def yearOf (x : DT) : Nat := (x.mi / 12).toNat

def monthOf (x : DT) : Nat := (x.mi % 12).toNat + 1

/-- Modelled from the spec: the external date-formatting collaborator's
`format` (`formatDay(day, pattern, locale)`) for the default display pattern
`yyyy-MM-dd` — the component calls `date-fns` `format`, which is outside
this repository. -/
def fmtISO (x : DT) : List Char :=
  pad4 (yearOf x) ++ '-' :: (pad2 (monthOf x) ++ '-' :: pad2 x.d)

/-- Modelled from the spec: the external collaborator's
`parseDay(text, pattern, locale) -> Day | ParseError` for `yyyy-MM-dd`:
ten characters shaped `dddd-dd-dd` with calendar validation, yielding the
parsed day at midnight; anything else is a parse error (`none`). -/
def parseISO (l : List Char) : Option DT :=
  match l with
  | [c1, c2, c3, c4, s1, c5, c6, s2, c7, c8] =>
    if (s1 == '-') && (s2 == '-') && isDigitCh c1 && isDigitCh c2 && isDigitCh c3
        && isDigitCh c4 && isDigitCh c5 && isDigitCh c6 && isDigitCh c7
        && isDigitCh c8 then
      let y := charVal c1 * 1000 + charVal c2 * 100 + charVal c3 * 10 + charVal c4
      let mo := charVal c5 * 10 + charVal c6
      let da := charVal c7 * 10 + charVal c8
      if 1 ≤ mo ∧ mo ≤ 12 ∧ 1 ≤ da
          ∧ da ≤ daysInMonth ((y : Int) * 12 + ((mo : Int) - 1)) then
        some ⟨(y : Int) * 12 + ((mo : Int) - 1), da, 0⟩
      else none
    else none
  | _ => none

/-- A calendar-valid day with a four-digit year. -/
def validDay (x : DT) : Bool :=
  decide (0 ≤ x.mi) && decide (x.mi < 120000) && decide (1 ≤ x.d)
    && decide (x.d ≤ daysInMonth x.mi)

theorem charVal_digitChar (n : Nat) (h : n < 10) : charVal (digitChar n) = n := by
  interval_cases n <;> rfl

theorem isDigitCh_digitChar (n : Nat) : isDigitCh (digitChar n) = true := by
  unfold digitChar
  rcases n with _|_|_|_|_|_|_|_|_|n <;> rfl

theorem digitChar_ne_tilde (n : Nat) : digitChar n ≠ '~' := fun h =>
  absurd (h ▸ isDigitCh_digitChar n) (by decide)

theorem isSpace_digitChar (n : Nat) : isSpace (digitChar n) = false := by
  unfold digitChar
  rcases n with _|_|_|_|_|_|_|_|_|n <;> rfl

theorem fmtISO_eq (x : DT) :
    fmtISO x =
      [digitChar (yearOf x / 1000 % 10), digitChar (yearOf x / 100 % 10),
       digitChar (yearOf x / 10 % 10), digitChar (yearOf x % 10), '-',
       digitChar (monthOf x / 10 % 10), digitChar (monthOf x % 10), '-',
       digitChar (x.d / 10 % 10), digitChar (x.d % 10)] := rfl

theorem tilde_not_mem_fmtISO (x : DT) : '~' ∉ fmtISO x := by
  rw [fmtISO_eq]
  intro h
  simp only [List.mem_cons, List.not_mem_nil, or_false] at h
  rcases h with h|h|h|h|h|h|h|h|h|h
  all_goals first
    | exact digitChar_ne_tilde _ h.symm
    | exact absurd h (by decide)

theorem noSpace_fmtISO (x : DT) : ∀ c ∈ fmtISO x, isSpace c = false := by
  rw [fmtISO_eq]
  intro c hc
  simp only [List.mem_cons, List.not_mem_nil, or_false] at hc
  rcases hc with rfl|rfl|rfl|rfl|rfl|rfl|rfl|rfl|rfl|rfl
  all_goals first | exact isSpace_digitChar _ | rfl

theorem fmtISO_ne_nil (x : DT) : fmtISO x ≠ [] := by
  rw [fmtISO_eq]
  simp


theorem splitOnTilde_eq_single (a : List Char) (h : '~' ∉ a) :
    splitOnTilde a = [a] := by
  induction a with
  | nil => rfl
  | cons c t ih =>
    simp only [List.mem_cons, not_or] at h
    unfold splitOnTilde
    rw [if_neg (fun hcc => h.1 hcc.symm)]
    rw [ih h.2]

theorem splitOnTilde_cons (c : Char) (t : List Char) :
    splitOnTilde (c :: t) =
      (if c = '~' then [] :: splitOnTilde t
       else
         match splitOnTilde t with
         | [] => [[c]]
         | t' :: ts => (c :: t') :: ts) := rfl

theorem splitOnTilde_append (a b : List Char) (h : '~' ∉ a) :
    splitOnTilde (a ++ '~' :: b) = a :: splitOnTilde b := by
  induction a with
  | nil =>
    simp only [List.nil_append]
    rw [splitOnTilde_cons, if_pos rfl]
  | cons c t ih =>
    simp only [List.mem_cons, not_or] at h
    have ih' := ih h.2
    rw [List.cons_append, splitOnTilde_cons,
      if_neg (fun hcc => h.1 hcc.symm), ih']

theorem dropWhile_isSpace_eq_self (l : List Char)
    (h : ∀ c ∈ l, isSpace c = false) : l.dropWhile isSpace = l := by
  cases l with
  | nil => rfl
  | cons c t => simp [List.dropWhile, h c (List.mem_cons_self c t)]

theorem trim_eq_self (l : List Char) (h : ∀ c ∈ l, isSpace c = false) :
    trim l = l := by
  unfold trim
  rw [dropWhile_isSpace_eq_self l h,
    dropWhile_isSpace_eq_self l.reverse
      (fun c hc => h c (List.mem_reverse.mp hc)),
    List.reverse_reverse]

theorem trim_append_space (l : List Char) (hne : l ≠ [])
    (h : ∀ c ∈ l, isSpace c = false) : trim (l ++ [' ']) = l := by
  unfold trim
  have h1 : (l ++ [' ']).dropWhile isSpace = l ++ [' '] := by
    cases l with
    | nil => exact absurd rfl hne
    | cons c t =>
      simp only [List.cons_append]
      simp [List.dropWhile, h c (List.mem_cons_self c t)]
  rw [h1, List.reverse_append]
  have h2 : ([' '].reverse ++ l.reverse).dropWhile isSpace = l.reverse := by
    have : ([' '].reverse ++ l.reverse) = ' ' :: l.reverse := by simp
    rw [this]
    have h3 : (' ' :: l.reverse).dropWhile isSpace = l.reverse.dropWhile isSpace := by
      simp [List.dropWhile, isSpace]
    rw [h3]
    exact dropWhile_isSpace_eq_self _ (fun c hc => h c (List.mem_reverse.mp hc))
  rw [h2, List.reverse_reverse]

theorem trim_cons_space (l : List Char) (h : ∀ c ∈ l, isSpace c = false) :
    trim (' ' :: l) = l := by
  unfold trim
  have h1 : (' ' :: l).dropWhile isSpace = l.dropWhile isSpace := by
    simp [List.dropWhile, isSpace]
  rw [h1, dropWhile_isSpace_eq_self l h,
    dropWhile_isSpace_eq_self l.reverse
      (fun c hc => h c (List.mem_reverse.mp hc)),
    List.reverse_reverse]


theorem daysInMonth_le_31 (mi : Int) : daysInMonth mi ≤ 31 := by
  unfold daysInMonth
  dsimp only
  split
  · split <;> omega
  · split <;> omega

theorem parseISO_fmtISO (x : DT) (hv : validDay x = true) :
    parseISO (fmtISO x) = some (startOfDay x) := by
  simp only [validDay, Bool.and_eq_true, decide_eq_true_eq] at hv
  obtain ⟨⟨⟨h0, h1⟩, hd1⟩, hd2⟩ := hv
  have hy : yearOf x < 10000 := by
    unfold yearOf
    omega
  have hmo1 : 1 ≤ monthOf x := by
    unfold monthOf
    omega
  have hmo2 : monthOf x ≤ 12 := by
    unfold monthOf
    omega
  have hd31 : x.d ≤ 31 := le_trans hd2 (daysInMonth_le_31 x.mi)
  have hmi : ((yearOf x : Int)) * 12 + ((monthOf x : Int) - 1) = x.mi := by
    unfold yearOf monthOf
    have e1 : ((x.mi / 12).toNat : Int) = x.mi / 12 :=
      Int.toNat_of_nonneg (by omega)
    have e2 : ((x.mi % 12).toNat : Int) = x.mi % 12 :=
      Int.toNat_of_nonneg (by omega)
    push_cast [e1, e2]
    omega
  rw [fmtISO_eq]
  unfold parseISO
  dsimp only
  have hguard :
      (('-' == '-') && ('-' == '-') && isDigitCh (digitChar (yearOf x / 1000 % 10))
        && isDigitCh (digitChar (yearOf x / 100 % 10))
        && isDigitCh (digitChar (yearOf x / 10 % 10))
        && isDigitCh (digitChar (yearOf x % 10))
        && isDigitCh (digitChar (monthOf x / 10 % 10))
        && isDigitCh (digitChar (monthOf x % 10))
        && isDigitCh (digitChar (x.d / 10 % 10))
        && isDigitCh (digitChar (x.d % 10))) = true := by
    simp [isDigitCh_digitChar]
  rw [if_pos hguard]
  have hyv : charVal (digitChar (yearOf x / 1000 % 10)) * 1000
      + charVal (digitChar (yearOf x / 100 % 10)) * 100
      + charVal (digitChar (yearOf x / 10 % 10)) * 10
      + charVal (digitChar (yearOf x % 10)) = yearOf x := by
    rw [charVal_digitChar _ (Nat.mod_lt _ (by norm_num)),
      charVal_digitChar _ (Nat.mod_lt _ (by norm_num)),
      charVal_digitChar _ (Nat.mod_lt _ (by norm_num)),
      charVal_digitChar _ (Nat.mod_lt _ (by norm_num))]
    omega
  have hmov : charVal (digitChar (monthOf x / 10 % 10)) * 10
      + charVal (digitChar (monthOf x % 10)) = monthOf x := by
    rw [charVal_digitChar _ (Nat.mod_lt _ (by norm_num)),
      charVal_digitChar _ (Nat.mod_lt _ (by norm_num))]
    omega
  have hdav : charVal (digitChar (x.d / 10 % 10)) * 10
      + charVal (digitChar (x.d % 10)) = x.d := by
    rw [charVal_digitChar _ (Nat.mod_lt _ (by norm_num)),
      charVal_digitChar _ (Nat.mod_lt _ (by norm_num))]
    omega
  rw [hyv, hmov, hdav, hmi]
  rw [if_pos ⟨hmo1, hmo2, hd1, hd2⟩]
  rfl


theorem isAfter_sd_ed_eq_false_of_dayLE (a b : DT) (h : dayLE a b = true) :
    isAfter (startOfDay a) (endOfDay b) = false := by
  simp [dayLE] at h
  simp [isAfter, isBefore, startOfDay, endOfDay]
  omega

/-- C8: serializing a valid, in-bounds selection with the default display
pattern (one token for single mode, `start ~ end` for range mode) and parsing
the text back through `applyText` restores the same selection at calendar-day
granularity. -/
theorem C8_text_roundtrip (cfg : Config) (st : PState) (x s e : DT)
    (he : cfg.editable = true)
    (hvx : validDay x = true) (hvs : validDay s = true) (hve : validDay e = true)
    (hord : dayLE s e = true)
    (hbx : disableDate cfg (startOfDay x) = false)
    (hbs : disableDate cfg (startOfDay s) = false)
    (hbe : disableDate cfg (startOfDay e) = false) :
    (cfg.singleDatePicker = true →
      (applyText cfg { st with textValue := textOf cfg fmtISO ⟨some x, some x⟩ }
          parseISO).1.tempRange
        = ⟨some (startOfDay x), some (startOfDay x)⟩
      ∧ isSameDay (startOfDay x) x = true)
    ∧ (cfg.singleDatePicker = false →
      (applyText cfg { st with textValue := textOf cfg fmtISO ⟨some s, some e⟩ }
          parseISO).1.tempRange
        = ⟨some (startOfDay s), some (endOfDay e)⟩
      ∧ isSameDay (startOfDay s) s = true
      ∧ isSameDay (endOfDay e) e = true) := by
  constructor
  · intro hsingle
    refine ⟨?_, by simp [isSameDay, startOfDay]⟩
    have htext : textOf cfg fmtISO ⟨some x, some x⟩ = fmtISO x := by
      simp [textOf, hsingle]
    simp only [applyText, he, hsingle, Bool.not_true, Bool.false_eq_true,
      if_false, if_true]
    unfold applyTextSingle
    rw [htext, trim_eq_self _ (noSpace_fmtISO x), parseISO_fmtISO x hvx]
    try dsimp only
    rw [hbx]
    try dsimp only
    repeat' split
    all_goals
      first
        | rfl
        | (rename_i hfalse; exact absurd rfl hfalse)
        | (rename_i hfalse; exact absurd hfalse (by decide))
  · intro hsingle
    refine ⟨?_, by simp [isSameDay, startOfDay], by simp [isSameDay, endOfDay]⟩
    have ha : (fmtISO s).isEmpty = false := by
      rw [fmtISO_eq]
      rfl
    have hb : (fmtISO e).isEmpty = false := by
      rw [fmtISO_eq]
      rfl
    have htext : textOf cfg fmtISO ⟨some s, some e⟩
        = fmtISO s ++ ' ' :: '~' :: ' ' :: fmtISO e := by
      simp [textOf, hsingle, ha, hb]
    have h1 : '~' ∉ fmtISO s ++ [' '] := by
      intro hm
      rcases List.mem_append.mp hm with hm | hm
      · exact tilde_not_mem_fmtISO s hm
      · simp at hm
    have h2 : '~' ∉ ' ' :: fmtISO e := by
      intro hm
      rcases List.mem_cons.mp hm with hm | hm
      · exact absurd hm (by decide)
      · exact tilde_not_mem_fmtISO e hm
    have hrw : fmtISO s ++ ' ' :: '~' :: ' ' :: fmtISO e
        = (fmtISO s ++ [' ']) ++ '~' :: (' ' :: fmtISO e) := by
      simp
    have hsplit : splitOnTilde (fmtISO s ++ ' ' :: '~' :: ' ' :: fmtISO e)
        = [fmtISO s ++ [' '], ' ' :: fmtISO e] := by
      rw [hrw, splitOnTilde_append _ _ h1, splitOnTilde_eq_single _ h2]
    have htrim1 : trim (fmtISO s ++ [' ']) = fmtISO s :=
      trim_append_space _ (fmtISO_ne_nil s) (noSpace_fmtISO s)
    have htrim2 : trim (' ' :: fmtISO e) = fmtISO e :=
      trim_cons_space _ (noSpace_fmtISO e)
    have haux : isAfter (startOfDay (startOfDay s)) (endOfDay (startOfDay e))
        = false := by
      have h3 := isAfter_sd_ed_eq_false_of_dayLE s e hord
      simpa [startOfDay, endOfDay] using h3
    simp only [applyText, he, hsingle, Bool.not_true, Bool.false_eq_true,
      if_false]
    rw [htext, hsplit]
    dsimp only
    rw [htrim1, htrim2, parseISO_fmtISO s hvs, parseISO_fmtISO e hve]
    dsimp only
    unfold applyTextPair
    try dsimp only
    rw [hbs, hbe]
    try dsimp only
    rw [haux]
    try dsimp only
    repeat' split
    all_goals
      first
        | rfl
        | (rename_i hfalse; exact absurd rfl hfalse)
        | (rename_i hfalse; exact absurd hfalse (by decide))

/-- C8 witness: round-tripping the range 2024-02-10 ~ 2024-02-20 through the
text codec restores it at day granularity. -/
theorem C8_text_roundtrip_witness :
    (applyText cfgEdit
        { st0 with textValue := (textOf cfgEdit fmtISO
            ⟨some (mkDate 2024 2 10), some (mkDate 2024 2 20)⟩) }
        parseISO).1.tempRange
      = ⟨some (startOfDay (mkDate 2024 2 10)), some (endOfDay (mkDate 2024 2 20))⟩ :=
  ((C8_text_roundtrip cfgEdit st0 (mkDate 2024 2 10) (mkDate 2024 2 10)
      (mkDate 2024 2 20) rfl (by decide) (by decide) (by decide) (by decide)
      (by decide) (by decide) (by decide)).2 rfl).1

end DRP
